import Mathlib

/-!
Verification of the `adClient` orchestration logic (`lib/adclient.js`).

The JavaScript source is embedded shallowly:

* Strings stay `String`; the small pieces of lodash / underscore.string the
  code uses (`_.compact`, `_.random` draws, `_.words(str, ",")`,
  `_.startsWith`, `_.ltrim(str, chars)`, `_.where`, `_.pick`) are translated
  to executable Lean functions with their exact semantics (in particular,
  `_.ltrim(s, "cn=")` strips the leading run of characters in the set
  `c`, `n`, `=`, not the literal prefix, and `_.random(lo, hi)` is inclusive
  on both ends, so its draw is modelled as an arbitrary `draw ≤ length`).
* The callback-driven control flow is translated to continuation passing:
  every method takes its callback as a Lean function.  The JavaScript code
  frequently calls `callback(err)` *without* returning, so a single method
  invocation may invoke its callback several times; the embedding reproduces
  this by simply invoking the continuation and then continuing.
* Mutable instance state (`masterClient`, `masterBound`, `userClient`,
  `userBound`) is threaded explicitly as a `St` value, together with a trace
  of the directory operations performed (binds, searches, unbinds, client
  creations, invocations of the caller's callback).  Calling a method on a
  client that is still `false` throws a `TypeError` in JavaScript; this is
  modelled by a `crash` trace event plus a `crashed` flag that silences all
  later effects (the unwound stack).
* Directory responses (bind errors, search result streams, end status) are
  supplied by an oracle `World`, one field per round trip of a flow.
-/

/-- The `params.url` value: a single string, an array, or anything else. -/
inductive JsUrl where
  | arr (urls : List String)
  | str (s : String)
  | other
deriving DecidableEq

/-- The constructor parameter object (fields read by the client). -/
structure Params where
  url : JsUrl
  groupSearchFilter : String
  groupSearchAttributes : List String
  groupSearchDN : String
  masterDn : String
  masterPw : String
  userSearchFilter : String
  userSearchAttributes : List String
deriving DecidableEq

/-- Mutable instance state of `adClient`: the two lazily created ldap
clients (`false` until created), the two bound flags, and a `crashed`
marker for a thrown `TypeError` (method call on a `false` client). -/
structure St where
  masterClient : Bool
  masterBound : Bool
  userClient : Bool
  userBound : Bool
  crashed : Bool
deriving DecidableEq

/-- Fresh instance state, as set up by the `adClient` constructor. -/
def initSt : St :=
  { masterClient := false, masterBound := false, userClient := false
    userBound := false, crashed := false }

/-- A member descriptor pushed by `getMembersOfGroupDN`:
`\x7bcn: valuedata, dn: value\x7d`.  `cn` is `Option` because the push
callback stores whatever second argument `extractCNFromDN` supplied. -/
structure Member where
  cn : Option String
  dn : String
deriving DecidableEq

/-- Values carried by an invocation of the caller's callback. -/
inductive JsVal where
  | undef
  | str (s : String)
  | members (ms : List Member)
  | obj (kvs : List (String × String))
deriving DecidableEq

/-- Observable events: directory operations, client creations, entry into
`close`, invocations of the top-level caller's callback, and thrown
`TypeError`s. -/
inductive Ev where
  | createClient
  | masterBind (dn pw : String)
  | masterSearch (base : String)
  | masterUnbind
  | userBind (dn pw : String)
  | userSearch (base : String)
  | userUnbind
  | closeCall
  | cbCall (err : JsVal) (res : JsVal)
  | crash
deriving DecidableEq

/-- Event traces. -/
abbrev Trace := List Ev

/-- A computation step: state and trace in, state and trace out. -/
abbrev M := St → Trace → St × Trace

/-- The `member` attribute of a group entry: absent, a single DN string,
or an array of DN strings. -/
inductive MemberAttr where
  | undef
  | str (dn : String)
  | arr (dns : List String)
deriving DecidableEq

/-- How a search result stream terminates: an in-stream `error` event, or
an `end` event with a status code. -/
inductive SearchTerm where
  | streamErr (e : String)
  | endRes (status : Nat)
deriving DecidableEq

/-- Outcome of one `client.search` round trip: an error passed directly to
the search callback, or a stream of entries followed by a terminator. -/
inductive SearchOut (E : Type) where
  | err (e : String)
  | stream (entries : List E) (term : SearchTerm)
deriving DecidableEq

/-- Oracle for the directory's behaviour during one flow: the outcome of
each possible round trip. -/
structure World where
  masterBindErr : Option String
  groupSearch : SearchOut MemberAttr
  userBindErr : Option String
  userSearch : SearchOut (List (String × String))
  userUnbindErr : Option String
  masterUnbindErr : Option String
deriving DecidableEq

/-- `_.compact`: drop falsy entries (for strings: the empty string). -/
def compactUrls (us : List String) : List String :=
  us.filter (fun x => x != "")

/-- `getUrl(paramUrl, callback)` (lines 67-80), as a pure function of the
parameter and the random draw; returns the `(err, url)` callback pair.
`_.random(0, paramUrl.length)` is inclusive, so `draw` ranges over
`0 .. length` and indexing with `draw = length` yields `undefined`. -/
def getUrl (paramUrl : JsUrl) (draw : Nat) : Option String × Option String :=
  match paramUrl with
  | JsUrl.arr us => (none, (compactUrls us)[draw]?)
  | JsUrl.str s => (none, some s)
  | JsUrl.other => (some "No valid url given", none)

/-- Lower-case a string character by character (`dn.toLowerCase()`). -/
def toLowerChars (s : String) : List Char :=
  s.data.map Char.toLower

/-- `_s.trim(str, ",")`: strip leading and trailing commas. -/
def trimCommasL (l : List Char) : List Char :=
  ((l.dropWhile (fun c => c == ',')).reverse.dropWhile (fun c => c == ',')).reverse

/-- `str.split(",")` on a character list: empty pieces are kept. -/
def splitChar : List Char → List (List Char)
  | [] => [[]]
  | c :: rest =>
    match splitChar rest with
    | [] => [[c]]
    | h :: t => if c == ',' then [] :: h :: t else (c :: h) :: t

/-- `_.startsWith(dndata, "cn=")`. -/
def startsWithCN : List Char → Bool
  | 'c' :: 'n' :: '=' :: _ => true
  | _ => false

/-- `_.ltrim(dndata, "cn=")`: strip the leading run of characters drawn
from the set `c`, `n`, `=` (a character class, not the literal prefix). -/
def ltrimCNL (l : List Char) : List Char :=
  l.dropWhile (fun c => c == 'c' || c == 'n' || c == '=')

/-- `_.words(dn.toLowerCase(), ",")`: lower-case, trim commas, split. -/
def componentsOf (dn : String) : List (List Char) :=
  splitChar (trimCommasL (toLowerChars dn))

/-- `extractCNFromDN(dn, callback)` (lines 107-117), as the list of
`(err, token)` callback invocations it performs, in order.  An undefined
`dn` produces the single error call; otherwise each comma component
starting with `cn=` produces one `(null, ltrimmed)` call, and a string
with no such component produces no call at all. -/
def extractCNCalls : Option String → List (Option String × Option String)
  | none => [(some "No DN given", none)]
  | some dn =>
    (componentsOf dn).filterMap (fun comp =>
      if startsWithCN comp then some (none, some (String.mk (ltrimCNL comp)))
      else none)

/-- The member descriptors pushed for one DN string `value`: one push per
callback invocation of `extractCNFromDN value` (lines 152-154 / 158-160). -/
def membersFromDN (value : String) : List Member :=
  (extractCNCalls (some value)).map (fun call => { cn := call.2, dn := value })

/-- The `memberObjects` array built from the single group entry's `member`
attribute (lines 148-162). -/
def memberObjects : MemberAttr → List Member
  | MemberAttr.undef => []
  | MemberAttr.str v => membersFromDN v
  | MemberAttr.arr vs => (vs.map membersFromDN).flatten

/-- `_.pick(resultSet[0], userSearchAttributes)` (line 207): keep exactly
the fields whose key occurs in the attribute list. -/
def pickAttrs (entry : List (String × String)) (attrs : List String) :
    List (String × String) :=
  entry.filter (fun kv => decide (kv.1 ∈ attrs))

/-- `_.where(result, \x7bcn: username\x7d)` (line 223): lodash iterates an
`undefined` collection as empty. -/
def whereCn (result : Option (List Member)) (username : String) : List Member :=
  match result with
  | none => []
  | some ms => ms.filter (fun m => m.cn == some username)

/-- Record one invocation of the top-level caller's callback (silenced
after a thrown `TypeError`, which unwinds past the whole flow). -/
def cbEmit (e r : JsVal) : M := fun s t =>
  if s.crashed then (s, t) else (s, t ++ [Ev.cbCall e r])

/-- A method call on a client that is still `false`: `TypeError`. -/
def crashNow : M := fun s t =>
  if s.crashed then (s, t) else ({ s with crashed := true }, t ++ [Ev.crash])

/-- `self.masterClient.bind(masterDn, masterPw, cb)` (line 89). -/
def masterBindOp (p : Params) (w : World) (k : Option String → M) : M :=
  fun s t =>
    if s.crashed then (s, t)
    else if s.masterClient then
      k w.masterBindErr s (t ++ [Ev.masterBind p.masterDn p.masterPw])
    else ({ s with crashed := true }, t ++ [Ev.crash])

/-- `self.masterClient.search(groupSearchDN, searchParams, cb)` (line 128). -/
def masterSearchOp (p : Params) (w : World) (k : SearchOut MemberAttr → M) : M :=
  fun s t =>
    if s.crashed then (s, t)
    else if s.masterClient then
      k w.groupSearch s (t ++ [Ev.masterSearch p.groupSearchDN])
    else ({ s with crashed := true }, t ++ [Ev.crash])

/-- `self.userClient.bind(userDn, password, cb)` (line 180). -/
def userBindOp (w : World) (userDn pw : String) (k : Option String → M) : M :=
  fun s t =>
    if s.crashed then (s, t)
    else if s.userClient then
      k w.userBindErr s (t ++ [Ev.userBind userDn pw])
    else ({ s with crashed := true }, t ++ [Ev.crash])

/-- `self.userClient.search(userDn, searchParams, cb)` (line 187). -/
def userSearchOp (w : World) (userDn : String)
    (k : SearchOut (List (String × String)) → M) : M :=
  fun s t =>
    if s.crashed then (s, t)
    else if s.userClient then
      k w.userSearch s (t ++ [Ev.userSearch userDn])
    else ({ s with crashed := true }, t ++ [Ev.crash])

/-- `self.userClient.unbind(cb)` (line 201). -/
def userUnbindOp (w : World) (k : Option String → M) : M :=
  fun s t =>
    if s.crashed then (s, t)
    else if s.userClient then
      k w.userUnbindErr s (t ++ [Ev.userUnbind])
    else ({ s with crashed := true }, t ++ [Ev.crash])

/-- `createClients(callback)` (lines 50-65): select a URL, lazily create
both clients on success, pass the error through on failure. -/
def createClients (draw : Nat) (p : Params) (k : Option String → M) : M :=
  fun s t =>
    if s.crashed then (s, t)
    else
      match (getUrl p.url draw).1 with
      | some e => k (some e) s t
      | none =>
        let t1 := if s.masterClient then t else t ++ [Ev.createClient]
        let s1 := { s with masterClient := true }
        let t2 := if s1.userClient then t1 else t1 ++ [Ev.createClient]
        let s2 := { s1 with userClient := true }
        k none s2 t2

/-- `bindMaster(callback)` (lines 82-92).  On a `createClients` error the
callback is invoked but execution continues (no `return`), and the bind is
attempted on the still-`false` client.  The already-bound short circuit
re-reads `masterBound` after the error callback returned. -/
def bindMaster (draw : Nat) (p : Params) (w : World) (k : Option String → M) : M :=
  createClients draw p (fun err s t =>
    let st1 :=
      match err with
      | some e => k (some e) s t
      | none => (s, t)
    if st1.1.masterBound then k none st1.1 st1.2
    else masterBindOp p w k st1.1 st1.2)

/-- `close(callback)` (lines 95-105): unbind the master client only when
`masterBound` is set (clearing the flag), then invoke the callback
unconditionally. -/
def close (w : World) (k : Option String → M) : M :=
  fun s t =>
    if s.crashed then (s, t)
    else
      let t0 := t ++ [Ev.closeCall]
      if s.masterBound then
        if s.masterClient then
          let s1 := { s with masterBound := false }
          let st1 := k w.masterUnbindErr s1 (t0 ++ [Ev.masterUnbind])
          k none st1.1 st1.2
        else ({ s with crashed := true }, t0 ++ [Ev.crash])
      else k none s t0

/-- `getMembersOfGroupDN(callback)` (lines 119-170).  A bind error invokes
the callback but does not return; a search-call error invokes the callback
and then crashes on `searchResult.on` (`searchResult` is `undefined`); a
non-zero end status is an error string; zero entries invoke `callback()`
with no arguments; one entry yields the member objects; more entries are
the unexpected-match-count error. -/
def getMembersOfGroupDN (draw : Nat) (p : Params) (w : World)
    (k : Option String → Option (List Member) → M) : M :=
  bindMaster draw p w (fun err s t =>
    let st1 :=
      match err with
      | some e => k (some e) none s t
      | none => (s, t)
    masterSearchOp p w (fun so s t =>
      match so with
      | SearchOut.err e =>
        let st2 := k (some e) none s t
        crashNow st2.1 st2.2
      | SearchOut.stream entries term =>
        match term with
        | SearchTerm.streamErr e => k (some e) none s t
        | SearchTerm.endRes status =>
          if status ≠ 0 then
            k (some ("Status of AD search was" ++ toString status)) none s t
          else
            match entries with
            | [] => k none none s t
            | [entry] => k none (some (memberObjects entry)) s t
            | _ => k (some "Error: unexpected number of matches") none s t)
      st1.1 st1.2)

/-- `authUserDn(userDn, password, callback)` (lines 176-217).  Errors from
`createClients`, the user bind and the search call invoke the callback but
do not return; on end status zero the user client is unbound (its error
ignored) before the cardinality switch, where zero matches invoke
`callback()` with no arguments, one match returns the picked attributes
and more are the unexpected-match-count error. -/
def authUserDn (draw : Nat) (p : Params) (w : World) (userDn pw : String)
    (k : Option String → Option (List (String × String)) → M) : M :=
  createClients draw p (fun err s t =>
    let st1 :=
      match err with
      | some e => k (some e) none s t
      | none => (s, t)
    userBindOp w userDn pw (fun berr s t =>
      let st2 :=
        match berr with
        | some e => k (some e) none s t
        | none => (s, t)
      userSearchOp w userDn (fun so s t =>
        match so with
        | SearchOut.err e =>
          let st3 := k (some e) none s t
          crashNow st3.1 st3.2
        | SearchOut.stream entries term =>
          match term with
          | SearchTerm.streamErr e => k (some e) none s t
          | SearchTerm.endRes status =>
            if status ≠ 0 then
              k (some ("Status of AD search was" ++ toString status)) none s t
            else
              userUnbindOp w (fun _uerr s t =>
                match entries with
                | [] => k none none s t
                | [entry] => k none (some (pickAttrs entry p.userSearchAttributes)) s t
                | _ => k (some "Error: unexpected number of matches") none s t)
                s t)
        st2.1 st2.2)
      st1.1 st1.2)

/-- `authUser(username, password, callback)` (lines 219-237).  A group
resolution error invokes the callback and continues; with no matching
member the session is closed and the user-not-found error reported; with a
match, `authUserDn` runs and its result is reported after `close`, where an
error leads to two callback invocations (no `return` before the success
call). -/
def authUser (draw1 draw2 : Nat) (p : Params) (w : World)
    (username password : String)
    (k : Option String → Option (List (String × String)) → M) : M :=
  getMembersOfGroupDN draw1 p w (fun err result s t =>
    let st1 :=
      match err with
      | some e => k (some e) none s t
      | none => (s, t)
    match whereCn result username with
    | [] =>
      close w (fun _err => k (some "Error: User not found") none) st1.1 st1.2
    | u :: _ =>
      authUserDn draw2 p w u.dn password (fun err2 userObject s t =>
        close w (fun _err3 s t =>
          let st2 :=
            match err2 with
            | some e => k (some e) userObject s t
            | none => (s, t)
          k none userObject st2.1 st2.2) s t)
        st1.1 st1.2)

/-- Wrap an `(err, result)` pair as callback-argument values. -/
def optStr : Option String → JsVal
  | none => JsVal.undef
  | some s => JsVal.str s

/-- Wrap an optional member list as a callback-argument value. -/
def optMembers : Option (List Member) → JsVal
  | none => JsVal.undef
  | some ms => JsVal.members ms

/-- Wrap an optional attribute object as a callback-argument value. -/
def optObj : Option (List (String × String)) → JsVal
  | none => JsVal.undef
  | some kvs => JsVal.obj kvs

/-- Run `getMembersOfGroupDN` from a fresh instance, recording each
invocation of the caller's callback in the trace. -/
def runGetMembers (draw : Nat) (p : Params) (w : World) : St × Trace :=
  getMembersOfGroupDN draw p w (fun e r => cbEmit (optStr e) (optMembers r)) initSt []

/-- Run `authUserDn` from a fresh instance, recording each invocation of
the caller's callback in the trace. -/
def runAuthUserDn (draw : Nat) (p : Params) (w : World) (dn pw : String) :
    St × Trace :=
  authUserDn draw p w dn pw (fun e r => cbEmit (optStr e) (optObj r)) initSt []

/-- Run `authUser` from a fresh instance, recording each invocation of the
caller's callback in the trace. -/
def runAuthUser (draw1 draw2 : Nat) (p : Params) (w : World) (u pw : String) :
    St × Trace :=
  authUser draw1 draw2 p w u pw (fun e r => cbEmit (optStr e) (optObj r)) initSt []

/-- A concrete parameter object used by the evaluation theorems. -/
def pEx : Params :=
  { url := JsUrl.str "ldap://srv"
    groupSearchFilter := "(cn=x)"
    groupSearchAttributes := ["member"]
    groupSearchDN := "cn=grp,dc=x"
    masterDn := "cn=master,dc=x"
    masterPw := "mpw"
    userSearchFilter := "(cn=x)"
    userSearchAttributes := ["cn", "mail"] }

/-- A base oracle: both binds succeed, both searches complete with status
zero and no entries, unbinds succeed. -/
def wBase : World :=
  { masterBindErr := none
    groupSearch := SearchOut.stream [] (SearchTerm.endRes 0)
    userBindErr := none
    userSearch := SearchOut.stream [] (SearchTerm.endRes 0)
    userUnbindErr := none
    masterUnbindErr := none }

/-- Oracle for a group search ending with non-zero status. -/
def wStatusOne : World :=
  { wBase with groupSearch := SearchOut.stream [] (SearchTerm.endRes 1) }

/-- Oracle for a user search returning two entries with status zero. -/
def wUserTwo : World :=
  { wBase with
    userSearch :=
      SearchOut.stream [[("cn", "a")], [("cn", "b")]] (SearchTerm.endRes 0) }

/-- Oracle for a user search returning one three-field entry. -/
def wUserOne : World :=
  { wBase with
    userSearch :=
      SearchOut.stream [[("cn", "jdoe"), ("sn", "doe"), ("mail", "j@x")]]
        (SearchTerm.endRes 0) }

/-- Oracle for a group search returning one entry whose member attribute is
the single DN `cn=jdoe,dc=x`. -/
def wGroupJdoe : World :=
  { wBase with
    groupSearch :=
      SearchOut.stream [MemberAttr.str "cn=jdoe,dc=x"] (SearchTerm.endRes 0) }

/-- Both bound-state flags are clear. -/
def FlagsOff (s : St) : Prop := s.masterBound = false ∧ s.userBound = false

/-- A computation preserves clear bound-state flags. -/
def PresBF (f : M) : Prop := ∀ s t, FlagsOff s → FlagsOff (f s t).1

/-- C1: on the group-resolution-error path of `authUser` the caller's
callback receives the error before `close` is invoked: with a group search
ending at status 1, the error callback (index 4) precedes `Ev.closeCall`
(index 5), and a second spurious `User not found` callback follows.  This
refutes the claim that every path invokes close before the result or error
is returned. -/
theorem authUser_groupError_callback_before_close :
    (runAuthUser 0 0 pEx wStatusOne "jdoe" "pw").2 =
      [Ev.createClient, Ev.createClient, Ev.masterBind "cn=master,dc=x" "mpw",
       Ev.masterSearch "cn=grp,dc=x",
       Ev.cbCall (JsVal.str "Status of AD search was1") JsVal.undef,
       Ev.closeCall,
       Ev.cbCall (JsVal.str "Error: User not found") JsVal.undef] := by
  decide

/-- C2: `getUrl` can answer with `undefined` instead of a member of the
compacted list: the inclusive `_.random(0, length)` draw equal to `length`
(here 1, with a compacted list of length 1) indexes past the array, and an
all-falsy list produces a success callback with `undefined` rather than the
no-valid-endpoint error. -/
theorem getUrl_random_draw_out_of_range :
    (compactUrls ["ldap://a"]).length = 1
    ∧ getUrl (JsUrl.arr ["ldap://a"]) 1 = (none, none)
    ∧ compactUrls [""] = []
    ∧ getUrl (JsUrl.arr [""]) 0 = (none, none) := by
  decide

/-- C3: `extractCNFromDN` strips the character set `c`, `n`, `=` rather
than the literal `cn=` prefix: `CN=nancy,...` yields `ancy`, not `nancy`
(while `CN=jdoe,...` happens to yield `jdoe`). -/
theorem extractCN_strips_charset_not_prefix :
    extractCNCalls (some "CN=nancy,OU=Users,DC=x,DC=com") = [(none, some "ancy")]
    ∧ extractCNCalls (some "CN=jdoe,OU=Users,DC=x,DC=com") = [(none, some "jdoe")] := by
  decide

/-- C4 counterexample: for the empty-string DN, `extractCNFromDN` performs
no callback invocation at all — in particular it does not fail with the
missing-DN error the claim requires. -/
theorem extractCN_empty_dn_silent :
    extractCNCalls (some "") = []
    ∧ (some "No DN given", (none : Option String)) ∉ extractCNCalls (some "") := by
  decide

/-- C4 (amended): only an absent (`undefined`) DN produces the
`No DN given` error callback; an empty-string DN produces no callback
invocation at all, hence neither an error nor a token. -/
theorem extractCN_missing_dn_only :
    extractCNCalls none = [(some "No DN given", none)]
    ∧ extractCNCalls (some "") = [] := by
  decide

/-- C5 counterexample: with status zero and zero matching group entries,
`getMembersOfGroupDN` invokes its callback with no arguments — the result
is `undefined`, not the empty member list the claim requires. -/
theorem getMembers_zero_entries_undefined_result :
    (runGetMembers 0 pEx wBase).2 =
      [Ev.createClient, Ev.createClient, Ev.masterBind "cn=master,dc=x" "mpw",
       Ev.masterSearch "cn=grp,dc=x", Ev.cbCall JsVal.undef JsVal.undef]
    ∧ Ev.cbCall JsVal.undef (JsVal.members []) ∉ (runGetMembers 0 pEx wBase).2 := by
  decide

/-- C6: in `authUserDn`, zero matching user entries after a successful bind
and a status-zero search is a silent success — `callback()` with no
arguments — not the user-record-not-found failure the claim requires
(while more than one match is indeed the unexpected-match-count error). -/
theorem authUserDn_zero_matches_silent_success :
    (runAuthUserDn 0 pEx wBase "cn=jdoe,dc=x" "pw").2 =
      [Ev.createClient, Ev.createClient, Ev.userBind "cn=jdoe,dc=x" "pw",
       Ev.userSearch "cn=jdoe,dc=x", Ev.userUnbind,
       Ev.cbCall JsVal.undef JsVal.undef]
    ∧ (runAuthUserDn 0 pEx wUserTwo "cn=jdoe,dc=x" "pw").2 =
      [Ev.createClient, Ev.createClient, Ev.userBind "cn=jdoe,dc=x" "pw",
       Ev.userSearch "cn=jdoe,dc=x", Ev.userUnbind,
       Ev.cbCall (JsVal.str "Error: unexpected number of matches") JsVal.undef] := by
  decide

/-- C5 counterexample aside, the general zero-entry behaviour (amended
claim): with a valid single-string URL, a successful master bind and a
group search completing with status zero and zero entries,
`getMembersOfGroupDN` invokes its callback exactly once, with no error and
an undefined result — a success carrying no member list (the caller's
`_.where` then treats the absent list as empty). -/
theorem getMembers_zero_entries_success_no_list (draw : Nat) (p : Params) (w : World)
    (u : String)
    (hurl : p.url = JsUrl.str u)
    (hbind : w.masterBindErr = none)
    (hsearch : w.groupSearch = SearchOut.stream [] (SearchTerm.endRes 0)) :
    (runGetMembers draw p w).2 =
      [Ev.createClient, Ev.createClient, Ev.masterBind p.masterDn p.masterPw,
       Ev.masterSearch p.groupSearchDN, Ev.cbCall JsVal.undef JsVal.undef] := by
  simp [runGetMembers, getMembersOfGroupDN, bindMaster, createClients, getUrl,
    masterBindOp, masterSearchOp, cbEmit, optStr, optMembers, initSt, hurl, hbind, hsearch]

/-- Witness for the amended C5 claim at the concrete fixture. -/
theorem getMembers_zero_entries_success_no_list_witness :
    (runGetMembers 0 pEx wBase).2 =
      [Ev.createClient, Ev.createClient, Ev.masterBind pEx.masterDn pEx.masterPw,
       Ev.masterSearch pEx.groupSearchDN, Ev.cbCall JsVal.undef JsVal.undef] :=
  getMembers_zero_entries_success_no_list 0 pEx wBase "ldap://srv" rfl rfl rfl

/-- C7: with a successful user bind and a user search returning exactly one
entry at status zero, `authUserDn` unbinds the user session (the
`Ev.userUnbind` event precedes the callback) and returns the entry
restricted by `_.pick` to `userSearchAttributes`, so every key of the
returned object occurs in the configured attribute list. -/
theorem authUserDn_filters_attributes (draw : Nat) (p : Params) (w : World)
    (u dn pw : String) (entry : List (String × String))
    (hurl : p.url = JsUrl.str u)
    (hbind : w.userBindErr = none)
    (hsearch : w.userSearch = SearchOut.stream [entry] (SearchTerm.endRes 0)) :
    (runAuthUserDn draw p w dn pw).2 =
      [Ev.createClient, Ev.createClient, Ev.userBind dn pw, Ev.userSearch dn,
       Ev.userUnbind,
       Ev.cbCall JsVal.undef (JsVal.obj (pickAttrs entry p.userSearchAttributes))]
    ∧ ∀ key ∈ (pickAttrs entry p.userSearchAttributes).map Prod.fst,
        key ∈ p.userSearchAttributes := by
  constructor
  · simp [runAuthUserDn, authUserDn, createClients, getUrl, userBindOp,
      userSearchOp, userUnbindOp, cbEmit, optStr, optObj, initSt, hurl, hbind, hsearch]
  · intro key hkey
    simp only [pickAttrs] at hkey
    obtain ⟨kv, hkv, hfst⟩ := List.mem_map.mp hkey
    subst hfst
    simpa using List.of_mem_filter hkv

/-- Witness for C7 at a concrete three-field entry and the two-attribute
whitelist of `pEx`. -/
theorem authUserDn_filters_attributes_witness :
    (runAuthUserDn 0 pEx wUserOne "cn=jdoe,dc=x" "pw").2 =
      [Ev.createClient, Ev.createClient, Ev.userBind "cn=jdoe,dc=x" "pw",
       Ev.userSearch "cn=jdoe,dc=x", Ev.userUnbind,
       Ev.cbCall JsVal.undef
         (JsVal.obj (pickAttrs [("cn", "jdoe"), ("sn", "doe"), ("mail", "j@x")]
           pEx.userSearchAttributes))]
    ∧ ∀ key ∈ (pickAttrs [("cn", "jdoe"), ("sn", "doe"), ("mail", "j@x")]
          pEx.userSearchAttributes).map Prod.fst,
        key ∈ pEx.userSearchAttributes :=
  authUserDn_filters_attributes 0 pEx wUserOne "ldap://srv" "cn=jdoe,dc=x" "pw"
    [("cn", "jdoe"), ("sn", "doe"), ("mail", "j@x")] rfl rfl rfl

/-- Shared computation: when group resolution succeeds with one group entry
and no member's `cn` equals the username (expressed as the `_.where`
filter being empty), `authUser` emits exactly the close-then-user-not-found
trace. -/
theorem authUser_userNotFound_trace (d1 d2 : Nat) (p : Params) (w : World)
    (u username pw : String) (attr : MemberAttr)
    (hurl : p.url = JsUrl.str u)
    (hbind : w.masterBindErr = none)
    (hsearch : w.groupSearch = SearchOut.stream [attr] (SearchTerm.endRes 0))
    (hfil : (memberObjects attr).filter (fun m => m.cn == some username) = []) :
    (runAuthUser d1 d2 p w username pw).2 =
      [Ev.createClient, Ev.createClient, Ev.masterBind p.masterDn p.masterPw,
       Ev.masterSearch p.groupSearchDN, Ev.closeCall,
       Ev.cbCall (JsVal.str "Error: User not found") JsVal.undef] := by
  simp [runAuthUser, authUser, getMembersOfGroupDN, bindMaster, createClients,
    getUrl, masterBindOp, masterSearchOp, close, whereCn, cbEmit, optStr, optObj,
    initSt, hurl, hbind, hsearch, hfil]

/-- C8: when group resolution succeeds but no resolved member's `cn` equals
the supplied username, `authUser` invokes `close` (the `Ev.closeCall`
event) and then fails with the user-not-found error, and no user bind is
ever attempted (no `Ev.userBind` event occurs in the trace). -/
theorem authUser_no_member_match_user_not_found (d1 d2 : Nat) (p : Params)
    (w : World) (u username pw : String) (attr : MemberAttr)
    (hurl : p.url = JsUrl.str u)
    (hbind : w.masterBindErr = none)
    (hsearch : w.groupSearch = SearchOut.stream [attr] (SearchTerm.endRes 0))
    (hnomatch : ∀ m ∈ memberObjects attr, ¬ m.cn = some username) :
    (runAuthUser d1 d2 p w username pw).2 =
      [Ev.createClient, Ev.createClient, Ev.masterBind p.masterDn p.masterPw,
       Ev.masterSearch p.groupSearchDN, Ev.closeCall,
       Ev.cbCall (JsVal.str "Error: User not found") JsVal.undef]
    ∧ ∀ d pw2, Ev.userBind d pw2 ∉ (runAuthUser d1 d2 p w username pw).2 := by
  have hfil : (memberObjects attr).filter (fun m => m.cn == some username) = [] := by
    rw [List.filter_eq_nil_iff]
    intro m hm
    simpa using hnomatch m hm
  have htr := authUser_userNotFound_trace d1 d2 p w u username pw attr hurl hbind hsearch hfil
  refine ⟨htr, ?_⟩
  intro d pw2 hmem
  rw [htr] at hmem
  simp at hmem

/-- Witness for C8: `nobody` is not among the members resolved from
`cn=jdoe,dc=x`. -/
theorem authUser_no_member_match_user_not_found_witness :
    (runAuthUser 0 0 pEx wGroupJdoe "nobody" "pw").2 =
      [Ev.createClient, Ev.createClient, Ev.masterBind pEx.masterDn pEx.masterPw,
       Ev.masterSearch pEx.groupSearchDN, Ev.closeCall,
       Ev.cbCall (JsVal.str "Error: User not found") JsVal.undef]
    ∧ ∀ d pw2, Ev.userBind d pw2 ∉ (runAuthUser 0 0 pEx wGroupJdoe "nobody" "pw").2 :=
  authUser_no_member_match_user_not_found 0 0 pEx wGroupJdoe "ldap://srv" "nobody" "pw"
    (MemberAttr.str "cn=jdoe,dc=x") rfl rfl rfl (by decide)

theorem uint32_le_iff (a b : UInt32) : a ≤ b ↔ a.toNat ≤ b.toNat := by
  rw [UInt32.le_def, BitVec.le_def]
  rfl

theorem char_isUpper_iff (c : Char) : c.isUpper = true ↔ 65 ≤ c.toNat ∧ c.toNat ≤ 90 := by
  simp only [Char.isUpper, Bool.and_eq_true, decide_eq_true_eq, ge_iff_le]
  rw [uint32_le_iff, uint32_le_iff]
  constructor
  · rintro ⟨h1, h2⟩
    exact ⟨h1, h2⟩
  · rintro ⟨h1, h2⟩
    exact ⟨h1, h2⟩

theorem charOfNat_toNat (m : Nat) (h : m < 55296) : (Char.ofNat m).toNat = m := by
  rw [Char.ofNat, dif_pos (Or.inl h)]
  rfl

theorem toLower_isUpper_false (c : Char) : (Char.toLower c).isUpper = false := by
  unfold Char.toLower
  by_cases h : c.toNat ≥ 65 ∧ c.toNat ≤ 90
  · rw [if_pos h]
    have hv : (Char.ofNat (c.toNat + 32)).toNat = c.toNat + 32 := charOfNat_toNat _ (by omega)
    rw [Bool.eq_false_iff]
    intro hup
    have := (char_isUpper_iff _).mp hup
    omega
  · rw [if_neg h]
    rw [Bool.eq_false_iff]
    intro hup
    have := (char_isUpper_iff _).mp hup
    omega

theorem mem_of_mem_dropWhile {q : Char → Bool} {c : Char} :
    ∀ {l : List Char}, c ∈ l.dropWhile q → c ∈ l := by
  intro l
  induction l with
  | nil => intro h; simp at h
  | cons a rest ih =>
    intro h
    rw [List.dropWhile_cons] at h
    by_cases ha : q a = true
    · rw [if_pos ha] at h
      exact List.mem_cons_of_mem a (ih h)
    · rw [if_neg ha] at h
      exact h

theorem mem_of_mem_trimCommasL {c : Char} {l : List Char}
    (h : c ∈ trimCommasL l) : c ∈ l := by
  unfold trimCommasL at h
  rw [List.mem_reverse] at h
  have h2 := mem_of_mem_dropWhile h
  rw [List.mem_reverse] at h2
  exact mem_of_mem_dropWhile h2

theorem splitChar_ne_nil (l : List Char) : splitChar l ≠ [] := by
  cases l with
  | nil => simp [splitChar]
  | cons c rest =>
    unfold splitChar
    cases h : splitChar rest with
    | nil => simp
    | cons a b =>
      dsimp only
      by_cases hc : (c == ',') = true
      · rw [if_pos hc]; simp
      · rw [if_neg hc]; simp

theorem mem_of_mem_splitChar {c : Char} :
    ∀ {l : List Char} {piece : List Char},
      piece ∈ splitChar l → c ∈ piece → c ∈ l := by
  intro l
  induction l with
  | nil =>
    intro piece hp hc
    simp [splitChar] at hp
    subst hp
    simp at hc
  | cons a rest ih =>
    intro piece hp hc
    unfold splitChar at hp
    cases h : splitChar rest with
    | nil => exact absurd h (splitChar_ne_nil rest)
    | cons hd tl =>
      rw [h] at hp
      dsimp only at hp
      by_cases ha : (a == ',') = true
      · rw [if_pos ha] at hp
        rcases List.mem_cons.mp hp with h1 | h1
        · subst h1; simp at hc
        · exact List.mem_cons_of_mem a (ih (h ▸ h1) hc)
      · rw [if_neg ha] at hp
        rcases List.mem_cons.mp hp with h1 | h1
        · subst h1
          rcases List.mem_cons.mp hc with h2 | h2
          · exact List.mem_cons.mpr (Or.inl h2)
          · exact List.mem_cons_of_mem a (ih (h ▸ List.mem_cons_self hd tl) h2)
        · exact List.mem_cons_of_mem a (ih (h ▸ List.mem_cons_of_mem hd h1) hc)

/-- Every token emitted by `extractCNFromDN` is carved out of the
lower-cased DN, so none of its characters is an ASCII uppercase letter. -/
theorem extractCN_token_not_upper (value : String) (e : Option String) (s : String)
    (hmem : (e, some s) ∈ extractCNCalls (some value)) :
    ∀ c ∈ s.data, c.isUpper = false := by
  intro c hc
  simp only [extractCNCalls] at hmem
  obtain ⟨comp, hcomp, hif⟩ := List.mem_filterMap.mp hmem
  by_cases hsw : startsWithCN comp = true
  · rw [if_pos hsw] at hif
    simp only [Option.some.injEq, Prod.mk.injEq] at hif
    have hdata : s.data = ltrimCNL comp := by
      rw [← hif.2]
    rw [hdata] at hc
    have h1 : c ∈ comp := mem_of_mem_dropWhile hc
    have h2 : c ∈ trimCommasL (toLowerChars value) :=
      mem_of_mem_splitChar hcomp h1
    have h3 : c ∈ toLowerChars value := mem_of_mem_trimCommasL h2
    simp only [toLowerChars, List.mem_map] at h3
    obtain ⟨c0, _, hc0⟩ := h3
    rw [← hc0]
    exact toLower_isUpper_false c0
  · rw [if_neg hsw] at hif
    exact absurd hif (by simp)

theorem membersFromDN_cn_not_upper (v : String) (m : Member)
    (hm : m ∈ membersFromDN v) (s : String) (hs : m.cn = some s) :
    ∀ c ∈ s.data, c.isUpper = false := by
  simp only [membersFromDN] at hm
  obtain ⟨call, hcall, hmk⟩ := List.mem_map.mp hm
  have hcn : call.2 = some s := by
    rw [← hmk] at hs
    exact hs
  have hmem : (call.1, some s) ∈ extractCNCalls (some v) := by
    rw [← hcn]
    simpa using hcall
  exact extractCN_token_not_upper v call.1 s hmem

/-- The `cn` of every member descriptor built from the group entry's member
attribute contains no ASCII uppercase letter. -/
theorem memberObjects_cn_not_upper (attr : MemberAttr) (m : Member)
    (hm : m ∈ memberObjects attr) (s : String) (hs : m.cn = some s) :
    ∀ c ∈ s.data, c.isUpper = false := by
  cases attr with
  | undef => simp [memberObjects] at hm
  | str v => exact membersFromDN_cn_not_upper v m hm s hs
  | arr vs =>
    simp only [memberObjects, List.mem_flatten, List.mem_map] at hm
    obtain ⟨l, ⟨v, _, hl⟩, hml⟩ := hm
    exact membersFromDN_cn_not_upper v m (hl ▸ hml) s hs

/-- C10: `_.where` matches `cn` by exact equality while every resolved
member's `cn` is carved out of the lower-cased DN; hence any username
containing an ASCII uppercase letter matches no member, and `authUser`
takes the user-not-found path whenever group resolution succeeds. -/
theorem authUser_uppercase_username_never_matches (d1 d2 : Nat) (p : Params)
    (w : World) (u username pw : String) (attr : MemberAttr)
    (hurl : p.url = JsUrl.str u)
    (hbind : w.masterBindErr = none)
    (hsearch : w.groupSearch = SearchOut.stream [attr] (SearchTerm.endRes 0))
    (hupper : ∃ c ∈ username.data, c.isUpper = true) :
    (runAuthUser d1 d2 p w username pw).2 =
      [Ev.createClient, Ev.createClient, Ev.masterBind p.masterDn p.masterPw,
       Ev.masterSearch p.groupSearchDN, Ev.closeCall,
       Ev.cbCall (JsVal.str "Error: User not found") JsVal.undef] := by
  have hfil : (memberObjects attr).filter (fun m => m.cn == some username) = [] := by
    rw [List.filter_eq_nil_iff]
    intro m hm
    simp only [beq_iff_eq]
    intro hcn
    obtain ⟨c, hc, hcu⟩ := hupper
    have hfalse := memberObjects_cn_not_upper attr m hm username hcn c hc
    rw [hfalse] at hcu
    exact Bool.false_ne_true hcu
  exact authUser_userNotFound_trace d1 d2 p w u username pw attr hurl hbind hsearch hfil

/-- Witness for C10: the username `Jdoe` (capital J) never matches the
member resolved from `cn=jdoe,dc=x`. -/
theorem authUser_uppercase_username_never_matches_witness :
    (runAuthUser 0 0 pEx wGroupJdoe "Jdoe" "pw").2 =
      [Ev.createClient, Ev.createClient, Ev.masterBind pEx.masterDn pEx.masterPw,
       Ev.masterSearch pEx.groupSearchDN, Ev.closeCall,
       Ev.cbCall (JsVal.str "Error: User not found") JsVal.undef] :=
  authUser_uppercase_username_never_matches 0 0 pEx wGroupJdoe "ldap://srv" "Jdoe" "pw"
    (MemberAttr.str "cn=jdoe,dc=x") rfl rfl rfl (by decide)

theorem presCbEmit (e r : JsVal) : PresBF (cbEmit e r) := by
  intro s t hs
  unfold cbEmit
  split
  · exact hs
  · exact hs

theorem presCrashNow : PresBF crashNow := by
  intro s t hs
  unfold crashNow
  split
  · exact hs
  · exact hs

theorem presMasterBindOp (p : Params) (w : World) (k : Option String → M)
    (hk : ∀ e, PresBF (k e)) : PresBF (masterBindOp p w k) := by
  intro s t hs
  unfold masterBindOp
  split
  · exact hs
  · split
    · exact hk _ _ _ hs
    · exact hs

theorem presMasterSearchOp (p : Params) (w : World) (k : SearchOut MemberAttr → M)
    (hk : ∀ so, PresBF (k so)) : PresBF (masterSearchOp p w k) := by
  intro s t hs
  unfold masterSearchOp
  split
  · exact hs
  · split
    · exact hk _ _ _ hs
    · exact hs

theorem presUserBindOp (w : World) (dn pw : String) (k : Option String → M)
    (hk : ∀ e, PresBF (k e)) : PresBF (userBindOp w dn pw k) := by
  intro s t hs
  unfold userBindOp
  split
  · exact hs
  · split
    · exact hk _ _ _ hs
    · exact hs

theorem presUserSearchOp (w : World) (dn : String)
    (k : SearchOut (List (String × String)) → M)
    (hk : ∀ so, PresBF (k so)) : PresBF (userSearchOp w dn k) := by
  intro s t hs
  unfold userSearchOp
  split
  · exact hs
  · split
    · exact hk _ _ _ hs
    · exact hs

theorem presUserUnbindOp (w : World) (k : Option String → M)
    (hk : ∀ e, PresBF (k e)) : PresBF (userUnbindOp w k) := by
  intro s t hs
  unfold userUnbindOp
  split
  · exact hs
  · split
    · exact hk _ _ _ hs
    · exact hs

theorem presCreateClients (draw : Nat) (p : Params) (k : Option String → M)
    (hk : ∀ e, PresBF (k e)) : PresBF (createClients draw p k) := by
  intro s t hs
  unfold createClients
  split
  · exact hs
  · split
    · exact hk _ _ _ hs
    · exact hk _ _ _ hs

theorem presBindMaster (draw : Nat) (p : Params) (w : World)
    (k : Option String → M) (hk : ∀ e, PresBF (k e)) :
    PresBF (bindMaster draw p w k) := by
  unfold bindMaster
  apply presCreateClients
  intro e s t hs
  dsimp only
  cases e with
  | some e0 =>
    have h1 : FlagsOff (k (some e0) s t).1 := hk _ _ _ hs
    split
    · exact hk _ _ _ h1
    · exact presMasterBindOp p w k hk _ _ h1
  | none =>
    split
    · exact hk _ _ _ hs
    · exact presMasterBindOp p w k hk _ _ hs

theorem presClose (w : World) (k : Option String → M) (hk : ∀ e, PresBF (k e)) :
    PresBF (close w k) := by
  intro s t hs
  unfold close
  split
  · exact hs
  · dsimp only
    split
    · next hb =>
      rw [hs.1] at hb
      exact absurd hb (by simp)
    · exact hk _ _ _ hs

theorem presGetMembers (draw : Nat) (p : Params) (w : World)
    (k : Option String → Option (List Member) → M)
    (hk : ∀ e r, PresBF (k e r)) : PresBF (getMembersOfGroupDN draw p w k) := by
  unfold getMembersOfGroupDN
  apply presBindMaster
  intro e s t hs
  dsimp only
  have h1 : FlagsOff ((match e with
      | some e0 => k (some e0) none s t
      | none => (s, t)) : St × Trace).1 := by
    cases e with
    | some e0 => exact hk _ _ _ _ hs
    | none => exact hs
  refine presMasterSearchOp p w _ ?_ _ _ h1
  intro so s2 t2 hs2
  cases so with
  | err e0 => exact presCrashNow _ _ (hk _ _ _ _ hs2)
  | stream entries term =>
    cases term with
    | streamErr e0 => exact hk _ _ _ _ hs2
    | endRes status =>
      dsimp only
      split
      · exact hk _ _ _ _ hs2
      · split
        · exact hk _ _ _ _ hs2
        · exact hk _ _ _ _ hs2
        · exact hk _ _ _ _ hs2

theorem presAuthUserDn (draw : Nat) (p : Params) (w : World) (dn pw : String)
    (k : Option String → Option (List (String × String)) → M)
    (hk : ∀ e r, PresBF (k e r)) : PresBF (authUserDn draw p w dn pw k) := by
  unfold authUserDn
  apply presCreateClients
  intro e s t hs
  dsimp only
  have h1 : FlagsOff ((match e with
      | some e0 => k (some e0) none s t
      | none => (s, t)) : St × Trace).1 := by
    cases e with
    | some e0 => exact hk _ _ _ _ hs
    | none => exact hs
  refine presUserBindOp w dn pw _ ?_ _ _ h1
  intro berr s2 t2 hs2
  dsimp only
  have h2 : FlagsOff ((match berr with
      | some e0 => k (some e0) none s2 t2
      | none => (s2, t2)) : St × Trace).1 := by
    cases berr with
    | some e0 => exact hk _ _ _ _ hs2
    | none => exact hs2
  refine presUserSearchOp w dn _ ?_ _ _ h2
  intro so s3 t3 hs3
  cases so with
  | err e0 => exact presCrashNow _ _ (hk _ _ _ _ hs3)
  | stream entries term =>
    cases term with
    | streamErr e0 => exact hk _ _ _ _ hs3
    | endRes status =>
      dsimp only
      split
      · exact hk _ _ _ _ hs3
      · refine presUserUnbindOp w _ ?_ _ _ hs3
        intro uerr s4 t4 hs4
        dsimp only
        split
        · exact hk _ _ _ _ hs4
        · exact hk _ _ _ _ hs4
        · exact hk _ _ _ _ hs4

theorem presAuthUser (d1 d2 : Nat) (p : Params) (w : World) (un pw : String)
    (k : Option String → Option (List (String × String)) → M)
    (hk : ∀ e r, PresBF (k e r)) : PresBF (authUser d1 d2 p w un pw k) := by
  unfold authUser
  apply presGetMembers
  intro e r s t hs
  dsimp only
  have h1 : FlagsOff ((match e with
      | some e0 => k (some e0) none s t
      | none => (s, t)) : St × Trace).1 := by
    cases e with
    | some e0 => exact hk _ _ _ _ hs
    | none => exact hs
  split
  · exact presClose w _ (fun _ => hk _ _) _ _ h1
  · refine presAuthUserDn d2 p w _ pw _ ?_ _ _ h1
    intro e2 r2 s2 t2 hs2
    refine presClose w _ ?_ _ _ hs2
    intro e3 s3 t3 hs3
    dsimp only
    cases e2 with
    | some e0 =>
      have h2 : FlagsOff (k (some e0) r2 s3 t3).1 := hk _ _ _ _ hs3
      exact hk _ _ _ _ h2
    | none => exact hk _ _ _ _ hs3

/-- With a valid single-string URL, clear flags and no prior crash,
`bindMaster` always reaches the directory bind: the continuation receives
exactly the oracle's bind outcome after a `masterBind` event, never the
short-circuit `callback()`. -/
theorem bindMaster_fresh (draw : Nat) (p : Params) (w : World) (u : String)
    (k : Option String → M) (s : St) (t : Trace)
    (hurl : p.url = JsUrl.str u) (hc : s.crashed = false) (hf : FlagsOff s) :
    ∃ s2 t2, FlagsOff s2 ∧
      bindMaster draw p w k s t =
        k w.masterBindErr s2 (t2 ++ [Ev.masterBind p.masterDn p.masterPw]) := by
  refine ⟨{ s with masterClient := true, userClient := true },
    (let t1 := if s.masterClient then t else t ++ [Ev.createClient]
     if s.userClient then t1 else t1 ++ [Ev.createClient]),
    ⟨hf.1, hf.2⟩, ?_⟩
  unfold bindMaster createClients masterBindOp getUrl
  rw [hurl]
  simp [hc, hf.1]

/-- With clear flags, `close` performs no master unbind: it leaves the
state untouched and goes straight to `callback()`. -/
theorem close_skips_unbind (w : World) (k : Option String → M) (s : St) (t : Trace)
    (hc : s.crashed = false) (hb : s.masterBound = false) :
    close w k s t = k none s (t ++ [Ev.closeCall]) := by
  unfold close
  simp [hc, hb]

/-- C9: the bound-state flags are initialized to `false` and preserved by
every operation of the client (for callbacks that preserve them, since the
continuation re-enters client code); consequently `bindMaster`'s
already-bound short circuit is unreachable — with a valid URL every call
performs a fresh directory bind — and `close` never issues a master
unbind, leaving the state unchanged. -/
theorem bound_flags_never_set :
    (initSt.masterBound = false ∧ initSt.userBound = false)
    ∧ (∀ draw p k, (∀ e, PresBF (k e)) → PresBF (createClients draw p k))
    ∧ (∀ draw p w k, (∀ e, PresBF (k e)) → PresBF (bindMaster draw p w k))
    ∧ (∀ w k, (∀ e, PresBF (k e)) → PresBF (close w k))
    ∧ (∀ draw p w k, (∀ e r, PresBF (k e r)) → PresBF (getMembersOfGroupDN draw p w k))
    ∧ (∀ draw p w dn pw k, (∀ e r, PresBF (k e r)) → PresBF (authUserDn draw p w dn pw k))
    ∧ (∀ d1 d2 p w un pw k, (∀ e r, PresBF (k e r)) → PresBF (authUser d1 d2 p w un pw k))
    ∧ (∀ draw p w u k s t, p.url = JsUrl.str u → s.crashed = false → FlagsOff s →
        ∃ s2 t2, FlagsOff s2 ∧
          bindMaster draw p w k s t =
            k w.masterBindErr s2 (t2 ++ [Ev.masterBind p.masterDn p.masterPw]))
    ∧ (∀ w k s t, s.crashed = false → s.masterBound = false →
        close w k s t = k none s (t ++ [Ev.closeCall])) :=
  ⟨⟨rfl, rfl⟩,
   fun draw p k hk => presCreateClients draw p k hk,
   fun draw p w k hk => presBindMaster draw p w k hk,
   fun w k hk => presClose w k hk,
   fun draw p w k hk => presGetMembers draw p w k hk,
   fun draw p w dn pw k hk => presAuthUserDn draw p w dn pw k hk,
   fun d1 d2 p w un pw k hk => presAuthUser d1 d2 p w un pw k hk,
   fun draw p w u k s t hurl hc hf => bindMaster_fresh draw p w u k s t hurl hc hf,
   fun w k s t hc hb => close_skips_unbind w k s t hc hb⟩

/-- Witness for C9: the full `authUser` flow from a fresh instance leaves
both flags `false`, and `close` from the fresh instance goes straight to
`callback()` with no unbind. -/
theorem bound_flags_never_set_witness :
    FlagsOff (runAuthUser 0 0 pEx wBase "jdoe" "pw").1
    ∧ close wBase (fun e => cbEmit (optStr e) JsVal.undef) initSt []
        = cbEmit (optStr none) JsVal.undef initSt [Ev.closeCall] := by
  constructor
  · exact bound_flags_never_set.2.2.2.2.2.2.1 0 0 pEx wBase "jdoe" "pw" _
      (fun e r => presCbEmit _ _) initSt [] ⟨rfl, rfl⟩
  · have h := bound_flags_never_set.2.2.2.2.2.2.2.2 wBase
      (fun e => cbEmit (optStr e) JsVal.undef) initSt [] rfl rfl
    simpa using h
